import Mathlib

/-!
Verification of the chatgpt-wrapper browser backend
(src/chatgpt_wrapper/backends/browser/chatgpt.py).

The development shallowly embeds the three cores of the program:

* the streaming exchange engine `ask_stream` (the poll loop over the DOM
  staging slot, lines 347-495 of the source), modelled as a function from a
  list of per-tick observations of the page to the trace of actions the
  generator performs (yields, script evaluations, cleanup, title calls);
* the conversation tree linearizer `conversation_data_to_messages`
  (lines 262-283), modelled with explicit fuel: the Python `while True`
  walk removes nothing from its search list, so once a cursor value repeats
  the walk repeats forever; with fuel `length + 1` running out of fuel
  coincides exactly (by pigeonhole on the found nodes) with divergence of
  the Python loop;
* the authenticated CRUD layer `set_title` / `delete_conversation`
  (lines 285-313) over `_process_api_response` (lines 194-204), and the
  session refresher `refresh_session` (lines 133-173).

Python dictionaries coming from JSON are embedded as structures whose
`Option` fields model key absence where the source tests key membership
("parent" not in item, "children" in item, "content" in message,
"author" in message) and JSON null where the source tests `is not None`.
-/

namespace CGW

/-! ## The streaming exchange engine -/

/-- What decoding the staging slot yields on one poll tick of `ask_stream`
(lines 455-464): `empty` when the slot holds no decodable event (empty
`innerHTML`, or an event that decodes to null) so `full_event_message`
stays `None`; `ok` when a well-formed event is decoded, carrying
`message.id`, `conversation_id` and `message.content.parts`; `bad` when
base64/JSON decoding or the field accesses raise (the `except` branch at
line 465). -/
inductive StagedData
  | empty
  | ok (msgId : String) (convId : String) (parts : List String)
  | bad
deriving DecidableEq

/-- One iteration's observation of the page state by the poll loop of
`ask_stream` (lines 440-484): the value of `self.streaming` at the top of
the iteration (set to `False` by a concurrent interrupt request), whether
`query_selector_all` finds the stream div and the eof div, what decoding
the stream div's content yields, and the wall-clock reading `time.time()`
used in the timeout test of line 481. -/
structure Tick where
  streaming : Bool
  divPresent : Bool
  eofPresent : Bool
  staged : StagedData
  time : Nat
deriving DecidableEq

/-- Externally visible actions of the `ask_stream` generator, in order:
chunks yielded to the caller, the `page.evaluate` that opens the outbound
XHR to the conversation endpoint (line 436), the `page.evaluate` of
`interrupt_stream` that publishes the interrupt div (lines 497-506), the
`_cleanup_divs` call that removes the staging divs (line 491), and the
title side calls (lines 492-495). -/
inductive Action
  | yieldChunk (text : String)
  | sendXhr
  | publishInterrupt
  | cleanupDivs
  | setTitleCall
  | genTitleCall
deriving DecidableEq

/-- How the poll loop of `ask_stream` ended. `exhausted` is the artefact of
observing only finitely many ticks: the loop was still running when the
observation window closed. -/
inductive ExitState
  | doneEof
  | interrupted
  | timeout
  | transportError
  | authError
  | exhausted
deriving DecidableEq

/-- The mutable state threaded through the poll loop: `last_event_msg`
(the baseline for the suffix diff, line 438 and 476) and the conversation
ids updated from each decoded event (lines 460-461). -/
structure StreamState where
  lastMsg : String
  pmid : String
  cid : Option String
deriving DecidableEq

/-- Result of running the poll loop over a window of ticks. -/
structure PollOut where
  trace : List Action
  exit : ExitState
  final : StreamState
deriving DecidableEq

/-- The explanatory chunk yielded when decoding the staged payload raises
(lines 466-471). -/
def readErrorMessage : String :=
  "Failed to read response from ChatGPT.  Tips:\n * Try again.  ChatGPT can be flaky.\n * Use the `session` command to refresh your session, and then try again.\n * Restart the program in the `install` mode and make sure you are logged in."

/-- The explanatory chunk yielded when the session has no access token
(lines 354-358). -/
def authErrorMessage : String :=
  "Your ChatGPT session is not usable.\n* Run this program with the `install` parameter and log in to ChatGPT.\n* If you think you are already logged in, try running the `session` command."

/-- The terminal marker yielded after an interrupt (lines 487-489). -/
def generationStoppedMessage : String := "\nGeneration stopped\n"

/-- The poll loop of `ask_stream` (lines 440-484), one tick per iteration:
check `self.streaming` (interrupt request publishes the interrupt div via
`interrupt_stream` and breaks); query the eof div and the stream div
(`continue` when the stream div is missing, skipping every other check);
decode the staged payload (yield `readErrorMessage` and break on a raised
exception); when a full message was decoded, yield its suffix beyond
`last_event_msg` and store it as the new baseline; break when the eof div
was seen, or when the wall clock has passed `timeout` seconds since
`start_time` while no full message was decoded this tick. -/
def pollLoop (startTime timeout : Nat) : List Tick → StreamState → PollOut
  | [], st => ⟨[], .exhausted, st⟩
  | t :: rest, st =>
    if t.streaming = false then ⟨[.publishInterrupt], .interrupted, st⟩
    else if t.divPresent = false then pollLoop startTime timeout rest st
    else
      match t.staged with
      | .bad => ⟨[.yieldChunk readErrorMessage], .transportError, st⟩
      | .empty =>
        if t.eofPresent then ⟨[], .doneEof, st⟩
        else if t.time - startTime > timeout then ⟨[], .timeout, st⟩
        else pollLoop startTime timeout rest st
      | .ok mid ncid parts =>
        let full := String.intercalate "\n" parts
        let chunk := full.drop st.lastMsg.length
        let st2 : StreamState := ⟨full, mid, some ncid⟩
        if t.eofPresent then ⟨[.yieldChunk chunk], .doneEof, st2⟩
        else
          let r := pollLoop startTime timeout rest st2
          ⟨.yieldChunk chunk :: r.trace, r.exit, r.final⟩

/-- The parsed `/api/auth/session` payload held in `self.session`;
`accessToken = none` models the "accessToken" key being absent
(line 353). -/
structure Session where
  accessToken : Option String
deriving DecidableEq

/-- Result of one whole `ask_stream` call: its action trace and how the
poll loop ended. -/
structure AskOut where
  trace : List Action
  exit : ExitState
deriving DecidableEq

/-- The title side calls after the loop (lines 492-495): `set_title` when a
title argument was given, else `_gen_title`, which returns without posting
when there is no conversation id or the title was already set
(line 243). -/
def titleActions (title : Option String) (cid : Option String) (titleSet : Bool) : List Action :=
  match title with
  | some _ => [.setTitleCall]
  | none =>
    match cid with
    | none => []
    | some _ => if titleSet then [] else [.genTitleCall]

/-- `ask_stream` (lines 347-495) for a given window of tick observations:
with no access token in the session it yields one explanatory chunk and
returns before evaluating any script against the page; otherwise it
evaluates the XHR script, runs the poll loop from an empty baseline, and
-- unless the observation window closed with the loop still running --
yields the generation-stopped marker when interrupted, removes the staging
divs, and performs the title side calls. -/
def ask_stream (session : Session) (ticks : List Tick) (startTime timeout : Nat)
    (title : Option String) (titleSet : Bool) (pmid : String) (cid : Option String) : AskOut :=
  match session.accessToken with
  | none => ⟨[.yieldChunk authErrorMessage], .authError⟩
  | some _ =>
    let r := pollLoop startTime timeout ticks ⟨"", pmid, cid⟩
    match r.exit with
    | .exhausted => ⟨.sendXhr :: r.trace, .exhausted⟩
    | .interrupted =>
      ⟨.sendXhr :: (r.trace ++ [.yieldChunk generationStoppedMessage, .cleanupDivs]
        ++ titleActions title r.final.cid titleSet), .interrupted⟩
    | ex =>
      ⟨.sendXhr :: (r.trace ++ [.cleanupDivs] ++ titleActions title r.final.cid titleSet), ex⟩

/-- The text chunks of a trace, in order: what the caller receives from
the generator. -/
def chunksOf (tr : List Action) : List String :=
  tr.filterMap fun a =>
    match a with
    | .yieldChunk s => some s
    | _ => none

/-- Whether the staged payload decoded to a full message this tick. -/
def stagedIsMsg : StagedData → Bool
  | .ok _ _ _ => true
  | _ => false

/-- Whether decoding the staged payload raised. -/
def stagedIsBad : StagedData → Bool
  | .bad => true
  | _ => false

/-- A tick on which the poll loop neither breaks nor yields an error:
streaming was not interrupted and either the stream div is missing (the
`continue` path) or the payload decodes without raising, no eof div is
present, and the timeout test of line 481 does not fire. -/
def Tick.advances (t : Tick) (startTime timeout : Nat) : Bool :=
  t.streaming &&
    (!t.divPresent ||
      (!stagedIsBad t.staged && !t.eofPresent &&
        (stagedIsMsg t.staged || !decide (t.time - startTime > timeout))))

/-- State update performed by one advancing tick. -/
def tickStep (t : Tick) (st : StreamState) : StreamState :=
  if t.divPresent then
    match t.staged with
    | .ok mid ncid parts => ⟨String.intercalate "\n" parts, mid, some ncid⟩
    | _ => st
  else st

/-- The actions performed by one advancing tick: the suffix-delta yield
when a full message was decoded, nothing otherwise. -/
def tickTrace (t : Tick) (st : StreamState) : List Action :=
  if t.divPresent then
    match t.staged with
    | .ok _ _ parts =>
      [.yieldChunk ((String.intercalate "\n" parts).drop st.lastMsg.length)]
    | _ => []
  else []

/-- Folding a window of advancing ticks: the accumulated actions and the
final stream state. -/
def runPre : List Tick → StreamState → List Action × StreamState
  | [], st => ([], st)
  | t :: ts, st =>
    let r := runPre ts (tickStep t st)
    (tickTrace t st ++ r.1, r.2)

/-- An uninterrupted tick of a well-behaved transport staging full text
`t`: the slot is empty when `t = ""` (the div's `innerHTML` starts empty
and base64-decodes to nothing, line 456-457), otherwise it holds a decoded
event whose parts join to `t`. -/
def stagingTick (eof : Bool) (t : String) : Tick :=
  { streaming := true, divPresent := true, eofPresent := eof,
    staged := if t = "" then .empty else .ok "msg-id" "conv-id" [t], time := 0 }

/-- A run staging the given full texts tick by tick, the eof div appearing
together with the last staged text. -/
def stagingTicks : List String → List Tick
  | [] => []
  | [t] => [stagingTick true t]
  | t :: t2 :: ts => stagingTick false t :: stagingTicks (t2 :: ts)

/-- The suffix deltas of a sequence of staged full texts over a baseline:
an empty slot yields nothing and keeps the baseline, a staged text yields
its part beyond the baseline's length and becomes the new baseline. -/
def stagedDeltas (base : String) : List String → List String
  | [] => []
  | t :: ts => if t = "" then stagedDeltas base ts else t.drop base.length :: stagedDeltas t ts

/-! ## The conversation tree linearizer -/

/-- The "author" object of an exported message. -/
structure Author where
  role : String
deriving DecidableEq

/-- The "content" object of an exported message. -/
structure Content where
  parts : List String
deriving DecidableEq

/-- An exported message: `content`/`author` are `none` when the key is
absent (the membership tests on line 276). -/
structure NodeMessage where
  id : String
  author : Option Author
  content : Option Content
  create_time : Nat
deriving DecidableEq

/-- One node of the "mapping" of a raw conversation export: `parent` is
`none` when the "parent" key is absent (line 265-266), `children` is
`none` when the "children" key is absent (line 267), `message` is `none`
when the message is JSON null (line 276). -/
structure ConversationNode where
  id : String
  parent : Option String
  children : Option (List String)
  message : Option NodeMessage
deriving DecidableEq

/-- A raw conversation export; the list is `mapping.values()` in insertion
order (line 263). -/
structure RawConversationExport where
  mapping : List ConversationNode
deriving DecidableEq

/-- One entry of the linearized output (lines 277-282); `created_time`
keeps the epoch seconds that `datetime.fromtimestamp` is applied to. -/
structure LinearMessage where
  id : String
  role : String
  message : String
  created_time : Nat
deriving DecidableEq

/-- Result of the linearizer: a returned list, the `IndexError` raised by
`parent_nodes[0]["children"][0]` on an empty children list (line 268), or
divergence of the `while True` walk (fuel exhaustion, which by pigeonhole
on the found nodes coincides with a repeating cursor and hence an infinite
Python loop). -/
inductive LinResult
  | ok (msgs : List LinearMessage)
  | indexError
  | outOfFuel
deriving DecidableEq

/-- The append filter of lines 276-282: a node's message enters the output
iff the message is not null, has "content" and "author" keys, and its
author role is not "system". -/
def nodeLinear (n : ConversationNode) : Option LinearMessage :=
  match n.message with
  | none => none
  | some m =>
    match m.content, m.author with
    | some ct, some au =>
      if au.role = "system" then none
      else some ⟨m.id, au.role, String.join ct.parts, m.create_time⟩
    | _, _ => none

/-- The `while True` walk of lines 271-283: find the first node whose
"parent" equals the cursor, return the accumulated messages when none is
found, else append its message through the filter and move the cursor to
the found node's id. -/
def linLoop : Nat → List ConversationNode → Option String → List LinearMessage → LinResult
  | 0, _, _, _ => .outOfFuel
  | fuel + 1, nodes, pid, acc =>
    match nodes.find? (fun n => n.parent == pid) with
    | none => .ok acc.reverse
    | some cur =>
      match nodeLinear cur with
      | some lm => linLoop fuel nodes (some cur.id) (lm :: acc)
      | none => linLoop fuel nodes (some cur.id) acc

/-- `conversation_data_to_messages` (lines 262-283): split the mapping
values into rootless nodes (no "parent" key) and the rest; when exactly
one rootless node exists and has a "children" key, start the walk at its
first child id (raising IndexError when the children list is empty), else
start at `None`. -/
def conversation_data_to_messages (cd : RawConversationExport) : LinResult :=
  let mapping_dict := cd.mapping.filter fun n => n.parent.isSome
  let parent_nodes := cd.mapping.filter fun n => n.parent.isNone
  match parent_nodes with
  | [p] =>
    match p.children with
    | some (c :: _) => linLoop (mapping_dict.length + 1) mapping_dict (some c) []
    | some [] => .indexError
    | none => linLoop (mapping_dict.length + 1) mapping_dict none []
  | _ => linLoop (mapping_dict.length + 1) mapping_dict none []

/-- The rootless nodes of an export (no "parent" key). -/
def rootlessNodes (cd : RawConversationExport) : List ConversationNode :=
  cd.mapping.filter fun n => n.parent.isNone

/-- The nodes carrying a "parent" key: the walk's search list. -/
def childNodes (cd : RawConversationExport) : List ConversationNode :=
  cd.mapping.filter fun n => n.parent.isSome

/-- The fuel the embedded walk runs on. -/
def fuelOf (cd : RawConversationExport) : Nat := (childNodes cd).length + 1

/-- Whether the walk reaches a cursor with no successor within the given
fuel: exactly when the Python loop returns. -/
def walkEnds : Nat → List ConversationNode → Option String → Bool
  | 0, _, _ => false
  | fuel + 1, nodes, pid =>
    match nodes.find? (fun n => n.parent == pid) with
    | none => true
    | some cur => walkEnds fuel nodes (some cur.id)

/-- The sequence of nodes the walk visits from a cursor, root side first:
the parent-pointer chain. -/
def chainFrom : Nat → List ConversationNode → Option String → List ConversationNode
  | 0, _, _ => []
  | fuel + 1, nodes, pid =>
    match nodes.find? (fun n => n.parent == pid) with
    | none => []
    | some cur => cur :: chainFrom fuel nodes (some cur.id)

/-! ## The conversation API layer -/

/-- An HTTP response as the CRUD layer sees it: `body` is `some` the raw
parsed body when `response.json()` succeeds and `none` when parsing the
body raises. -/
structure ApiResponse where
  ok : Bool
  status : Nat
  status_text : String
  body : Option String
deriving DecidableEq

/-- A Python call outcome: a returned value or a raised exception. -/
inductive PyResult (α : Type)
  | ok (val : α)
  | exc (name : String)
deriving DecidableEq

/-- `_process_api_response` (lines 194-204): on a non-ok response no parse
is attempted and `(False, None, response)` is returned; on an ok response
with a parseable body `(True, body, response)` is returned. On an ok
response whose body fails to parse the handler `except json.JSONDecodeError`
is evaluated with the local name `json` bound to `None` by line 196, so the
except clause itself raises AttributeError. -/
def process_api_response (r : ApiResponse) : PyResult (Bool × Option String × ApiResponse) :=
  if r.ok then
    match r.body with
    | some j => .ok (true, some j, r)
    | none => .exc "AttributeError"
  else .ok (false, none, r)

/-- `_handle_error` (lines 107-110): the failure triple, its human message
built from the status line of the failing response. -/
def handle_error (obj : Option String) (r : ApiResponse) (message : String) :
    Bool × Option String × String :=
  (false, obj, message ++ ": " ++ toString r.status ++ " " ++ r.status_text)

/-- `set_title` (lines 301-313) given the PATCH response. -/
def set_title (r : ApiResponse) : PyResult (Bool × Option String × String) :=
  match process_api_response r with
  | .exc e => .exc e
  | .ok (ok, j, resp) =>
    if ok then .ok (true, j, "Title set")
    else .ok (handle_error j resp "Failed to set title")

/-- Result of `delete_conversation` (lines 285-299): the bare `return`
when neither a uuid argument nor a current conversation id exists, the
success triple `(ok, json, response)`, or the failure triple from
`_handle_error`. -/
inductive DeleteResult
  | noneReturned
  | success (j : Option String) (r : ApiResponse)
  | failure (triple : Bool × Option String × String)
deriving DecidableEq

/-- `delete_conversation` (lines 285-299) given the PATCH response. -/
def delete_conversation (uuidArg : Option String) (convId : Option String)
    (r : ApiResponse) : PyResult DeleteResult :=
  if uuidArg = none ∧ convId = none then .ok .noneReturned
  else
    match process_api_response r with
    | .exc e => .exc e
    | .ok (ok, j, resp) =>
      if ok then .ok (.success j resp)
      else .ok (.failure (handle_error j resp "Failed to delete conversation"))

/-! ## The session refresher -/

/-- Navigations performed on the page by `refresh_session`:
`gotoSession` is the redirect to /api/auth/session (line 142), `gotoChat`
is `_start_browser()`, the navigation to the chat landing page
(lines 104-105). -/
inductive NavAction
  | gotoSession
  | gotoChat
deriving DecidableEq

/-- The environment a `refresh_session` call runs against: whether
`wait_for_url` succeeds within its timeout (line 144), whether the
anti-automation interstitial ever clears (the unbounded while loop of
line 149), whether the regex of line 161 finds a JSON span in the page
contents, and whether `json.loads` parses that span (line 166). -/
structure RefreshEnv where
  waitOk : Bool
  interstitialClears : Bool
  jsonFound : Bool
  parseOk : Bool
deriving DecidableEq

/-- `refresh_session` (lines 133-173): navigate to the session endpoint;
on a wait timeout navigate back to the chat page and continue; spin while
the interstitial is shown (never returning when it never clears, hence the
`none` result); extract and parse the JSON span, a missing span or a parse
failure being caught as JSONDecodeError and only logged; finally navigate
to the chat page. Returns the navigation trace and whether `self.session`
was replaced. -/
def refresh_session (env : RefreshEnv) : Option (List NavAction × Bool) :=
  if env.interstitialClears = false then none
  else
    some ([NavAction.gotoSession] ++ (if env.waitOk then [] else [NavAction.gotoChat])
            ++ [NavAction.gotoChat],
          env.jsonFound && env.parseOk)

/-! ## Concrete inputs used by counterexamples and witnesses -/

/-- A session carrying an access token. -/
def tokSession : Session := ⟨some "tok"⟩

/-- An export whose single rootless node has an empty children list:
`parent_nodes[0]["children"][0]` raises IndexError on it. -/
def emptyChildrenExport : RawConversationExport :=
  ⟨[⟨"root", none, some [], none⟩]⟩

/-- A linear two-turn export: root -> first child "a" (user "hi") ->
"b" (assistant "hello") -> "c" (user "bye"). The walk starts below "a",
so "hi" is never returned. -/
def twoTurnExport : RawConversationExport :=
  ⟨[⟨"root", none, some ["a"], none⟩,
    ⟨"a", some "root", some ["b"], some ⟨"ma", some ⟨"user"⟩, some ⟨["hi"]⟩, 1⟩⟩,
    ⟨"b", some "a", some ["c"], some ⟨"mb", some ⟨"assistant"⟩, some ⟨["hello"]⟩, 2⟩⟩,
    ⟨"c", some "b", some [], some ⟨"mc", some ⟨"user"⟩, some ⟨["bye"]⟩, 3⟩⟩]⟩

/-- An export with a system message on the active chain, to witness the
system-role exclusion. -/
def systemChainExport : RawConversationExport :=
  ⟨[⟨"root", none, some ["a"], none⟩,
    ⟨"a", some "root", some ["b"], some ⟨"ma", some ⟨"system"⟩, some ⟨[""]⟩, 1⟩⟩,
    ⟨"b", some "a", some ["c"], some ⟨"mb", some ⟨"system"⟩, some ⟨["sys"]⟩, 2⟩⟩,
    ⟨"c", some "b", some [], some ⟨"mc", some ⟨"user"⟩, some ⟨["q"]⟩, 3⟩⟩]⟩

/-- An export with two rootless nodes. -/
def twoRootsExport : RawConversationExport :=
  ⟨[⟨"r1", none, some ["a"], none⟩,
    ⟨"r2", none, some ["b"], none⟩,
    ⟨"a", some "r1", some [], some ⟨"ma", some ⟨"user"⟩, some ⟨["hi"]⟩, 1⟩⟩]⟩

/-- A run in which the full text "Hi" is staged before the deadline and
then only stale re-reads of the same slot occur, the wall clock far past
the timeout of 60 seconds, with no eof div and no interrupt. -/
def staleSlotTicks : List Tick :=
  [⟨true, true, false, .ok "m" "c" ["Hi"], 0⟩,
   ⟨true, true, false, .ok "m" "c" ["Hi"], 500⟩,
   ⟨true, true, false, .ok "m" "c" ["Hi"], 700⟩,
   ⟨true, true, false, .ok "m" "c" ["Hi"], 900⟩]

/-- A tick observing an empty staging slot past the deadline. -/
def emptyPastDeadlineTick : Tick := ⟨true, true, false, .empty, 100⟩

/-- A tick observing a staged chunk before the deadline. -/
def chunkTick : Tick := ⟨true, true, false, .ok "m" "c" ["Hi"], 1⟩

/-- A tick on which an interrupt request has been observed. -/
def interruptTick : Tick := ⟨false, true, false, .empty, 2⟩

/-- A tick carrying the eof div together with the final staged text. -/
def eofTick : Tick := ⟨true, true, true, .ok "m" "c" ["Hi there"], 3⟩

/-! ## String helper lemmas -/

theorem sfoldl_append (l : List String) (a : String) :
    l.foldl (fun r s => r ++ s) a = a ++ l.foldl (fun r s => r ++ s) "" := by
  induction l generalizing a with
  | nil => simp [List.foldl, String.append_empty]
  | cons s l ih =>
    simp only [List.foldl]
    rw [ih (a ++ s), ih ("" ++ s), String.empty_append, String.append_assoc]

theorem sjoin_cons (s : String) (l : List String) :
    String.join (s :: l) = s ++ String.join l := by
  simp only [String.join, List.foldl]
  rw [sfoldl_append l ("" ++ s), String.empty_append]

theorem sdrop_append (a b : String) : (a ++ b).drop a.length = b := by
  rw [String.drop_eq]
  apply String.ext
  show ((a ++ b).data.drop a.length) = b.data
  rw [String.data_append]
  exact List.drop_left a.data b.data

theorem sappend_eq_empty {a b : String} (h : a ++ b = "") : a = "" := by
  apply String.ext
  have hd := congrArg String.data h
  rw [String.data_append] at hd
  have h2 := List.append_eq_nil.mp hd
  simpa using h2.1

theorem sintercalate_single (t : String) : String.intercalate "\n" [t] = t := rfl

/-! ## The staged-run trace of the poll loop -/

theorem pollLoop_stagingTicks (tmo : Nat) :
    ∀ (ts : List String) (st : StreamState), ts ≠ [] →
      (pollLoop 0 tmo (stagingTicks ts) st).trace
          = (stagedDeltas st.lastMsg ts).map Action.yieldChunk
        ∧ (pollLoop 0 tmo (stagingTicks ts) st).exit = ExitState.doneEof := by
  intro ts
  induction ts with
  | nil => intro st h; exact absurd rfl h
  | cons t rest ih =>
    intro st _
    cases rest with
    | nil =>
      by_cases ht : t = ""
      · subst ht
        simp [stagingTicks, stagingTick, pollLoop, stagedDeltas]
      · simp [stagingTicks, stagingTick, ht, pollLoop, stagedDeltas, sintercalate_single]
    | cons t2 rest2 =>
      by_cases ht : t = ""
      · subst ht
        have h2 := ih st (by simp)
        simp only [stagingTicks, stagingTick, pollLoop, stagedDeltas] at h2 ⊢
        simpa using h2
      · have h2 := ih ⟨t, "msg-id", some "conv-id"⟩ (by simp)
        simp [stagingTicks, stagingTick, ht, pollLoop, stagedDeltas, sintercalate_single,
          h2.1, h2.2]

theorem chunksOf_titleActions (title : Option String) (cid : Option String) (tset : Bool) :
    chunksOf (titleActions title cid tset) = [] := by
  cases title <;> cases cid <;> cases tset <;> simp [titleActions, chunksOf]

theorem chunksOf_map_yield (l : List String) :
    chunksOf (l.map Action.yieldChunk) = l := by
  induction l with
  | nil => rfl
  | cons s l ih => simp [chunksOf, List.filterMap_cons] at ih ⊢; exact ih

theorem chunksOf_append (a b : List Action) :
    chunksOf (a ++ b) = chunksOf a ++ chunksOf b := by
  simp [chunksOf, List.filterMap_append]

theorem join_stagedDeltas :
    ∀ (ts : List String) (base final : String),
      List.Chain' (fun a b => ∃ u, b = a ++ u) (base :: ts) →
      (base :: ts).getLast? = some final →
      base ++ String.join (stagedDeltas base ts) = final := by
  intro ts
  induction ts with
  | nil =>
    intro base final _ hlast
    simp only [List.getLast?_singleton, Option.some.injEq] at hlast
    subst hlast
    simp [stagedDeltas, String.join, List.foldl, String.append_empty]
  | cons t rest ih =>
    intro base final hchain hlast
    rw [List.chain'_cons] at hchain
    obtain ⟨⟨u, hu⟩, hch⟩ := hchain
    have hlast2 : (t :: rest).getLast? = some final := by
      rw [List.getLast?_cons_cons] at hlast
      exact hlast
    by_cases ht : t = ""
    · subst ht
      have hb : base = "" := sappend_eq_empty hu.symm
      subst hb
      rw [stagedDeltas, if_pos rfl]
      exact ih "" final hch hlast2
    · rw [stagedDeltas, if_neg ht, sjoin_cons, ← String.append_assoc]
      have h4 : base ++ t.drop base.length = t := by
        rw [hu, sdrop_append]
      rw [h4]
      exact ih t final hch hlast2

/-! ## Claim C1 -/

/-- C1: for any monotonically growing sequence of full answer texts staged
in order during one exchange, `ask_stream` yields exactly the suffix
deltas -- each delta the staged text beyond the previously observed
baseline -- and the concatenation of all yielded deltas reconstructs the
final staged text exactly. -/
theorem c1_diff_by_suffix (ts : List String) (final : String) (tok pmid : String)
    (cid : Option String) (title : Option String) (titleSet : Bool) (tmo : Nat)
    (hne : ts ≠ [])
    (hchain : List.Chain' (fun a b => ∃ u, b = a ++ u) ("" :: ts))
    (hlast : ts.getLast? = some final) :
    chunksOf (ask_stream ⟨some tok⟩ (stagingTicks ts) 0 tmo title titleSet pmid cid).trace
        = stagedDeltas "" ts
      ∧ String.join (stagedDeltas "" ts) = final := by
  have hp := pollLoop_stagingTicks tmo ts ⟨"", pmid, cid⟩ hne
  constructor
  · simp only [ask_stream]
    rw [hp.2]
    simp only [List.cons_append]
    rw [show (Action.sendXhr
        :: ((pollLoop 0 tmo (stagingTicks ts) ⟨"", pmid, cid⟩).trace ++ [Action.cleanupDivs]
          ++ titleActions title (pollLoop 0 tmo (stagingTicks ts) ⟨"", pmid, cid⟩).final.cid
            titleSet)) = [Action.sendXhr]
        ++ (pollLoop 0 tmo (stagingTicks ts) ⟨"", pmid, cid⟩).trace
        ++ ([Action.cleanupDivs]
          ++ titleActions title (pollLoop 0 tmo (stagingTicks ts) ⟨"", pmid, cid⟩).final.cid
            titleSet) by simp]
    rw [chunksOf_append, chunksOf_append, chunksOf_append, hp.1, chunksOf_map_yield,
      chunksOf_titleActions]
    simp [chunksOf]
  · have hl2 : ("" :: ts).getLast? = some final := by
      cases ts with
      | nil => exact absurd rfl hne
      | cons a l => rw [List.getLast?_cons_cons]; exact hlast
    have := join_stagedDeltas ts "" final hchain hl2
    rwa [String.empty_append] at this

/-- Witness for C1 at the staged sequence ["Hi", "Hi there"]. -/
theorem c1_diff_by_suffix_witness :
    chunksOf (ask_stream ⟨some "tok"⟩ (stagingTicks ["Hi", "Hi there"]) 0 60 none false
        "p" none).trace = ["Hi", " there"]
      ∧ String.join ["Hi", " there"] = "Hi there" := by
  have h := c1_diff_by_suffix ["Hi", "Hi there"] "Hi there" "tok" "p" none none false 60
    (by decide)
    (by
      rw [List.chain'_cons, List.chain'_cons]
      exact ⟨⟨"Hi", by decide⟩, ⟨" there", by decide⟩, List.chain'_singleton _⟩)
    (by decide)
  have hd : stagedDeltas "" ["Hi", "Hi there"] = ["Hi", " there"] := by decide
  rw [hd] at h
  exact h

/-! ## Claim C2 -/

/-- C2: calling `ask_stream` with a session lacking the access-token field
yields exactly one explanatory text chunk and terminates immediately,
without evaluating the outbound XHR script against the page. -/
theorem c2_auth_precondition (ticks : List Tick) (startTime tmo : Nat)
    (title : Option String) (titleSet : Bool) (pmid : String) (cid : Option String) :
    (ask_stream ⟨none⟩ ticks startTime tmo title titleSet pmid cid).trace
        = [Action.yieldChunk authErrorMessage]
      ∧ Action.sendXhr ∉ (ask_stream ⟨none⟩ ticks startTime tmo title titleSet pmid cid).trace
      ∧ (ask_stream ⟨none⟩ ticks startTime tmo title titleSet pmid cid).exit
          = ExitState.authError := by
  refine ⟨rfl, ?_, rfl⟩
  simp [ask_stream]

/-! ## Advancing ticks: one-step and many-step unfolding of the poll loop -/

theorem pollLoop_advance (startTime tmo : Nat) (t : Tick) (rest : List Tick)
    (st : StreamState) (h : t.advances startTime tmo = true) :
    pollLoop startTime tmo (t :: rest) st =
      ⟨tickTrace t st ++ (pollLoop startTime tmo rest (tickStep t st)).trace,
       (pollLoop startTime tmo rest (tickStep t st)).exit,
       (pollLoop startTime tmo rest (tickStep t st)).final⟩ := by
  obtain ⟨tstr, tdiv, teof, tstg, ttime⟩ := t
  simp only [Tick.advances] at h
  cases tstr with
  | false => simp at h
  | true =>
    cases tdiv with
    | false => simp [pollLoop, tickTrace, tickStep]
    | true =>
      cases tstg with
      | bad => simp [stagedIsBad] at h
      | empty =>
        cases teof with
        | true => simp [stagedIsBad, stagedIsMsg] at h
        | false =>
          have hto : ¬ (ttime - startTime > tmo) := by
            simpa [stagedIsBad, stagedIsMsg] using h
          simp [pollLoop, tickTrace, tickStep, hto]
      | ok mid ncid parts =>
        cases teof with
        | true => simp [stagedIsBad, stagedIsMsg] at h
        | false => simp [pollLoop, tickTrace, tickStep]

theorem pollLoop_runPre (startTime tmo : Nat) :
    ∀ (pre rest : List Tick) (st : StreamState),
      (∀ t ∈ pre, t.advances startTime tmo = true) →
      pollLoop startTime tmo (pre ++ rest) st =
        ⟨(runPre pre st).1 ++ (pollLoop startTime tmo rest (runPre pre st).2).trace,
         (pollLoop startTime tmo rest (runPre pre st).2).exit,
         (pollLoop startTime tmo rest (runPre pre st).2).final⟩ := by
  intro pre
  induction pre with
  | nil => intro rest st _; simp [runPre]
  | cons t ts ih =>
    intro rest st hall
    have ht := hall t (by simp)
    have hts : ∀ u ∈ ts, u.advances startTime tmo = true := fun u hu => hall u (by simp [hu])
    rw [List.cons_append, pollLoop_advance startTime tmo t (ts ++ rest) st ht,
      ih rest (tickStep t st) hts]
    simp [runPre, List.append_assoc]

theorem tickTrace_yields (t : Tick) (st : StreamState) :
    ∃ c : List String, tickTrace t st = c.map Action.yieldChunk := by
  unfold tickTrace
  by_cases hd : t.divPresent
  · rw [if_pos hd]
    cases ht : t.staged
    · exact ⟨[], rfl⟩
    · exact ⟨[(String.intercalate "\n" _).drop st.lastMsg.length], rfl⟩
    · exact ⟨[], rfl⟩
  · rw [if_neg hd]
    exact ⟨[], rfl⟩

theorem runPre_trace_yields :
    ∀ (pre : List Tick) (st : StreamState),
      ∃ chunks : List String, (runPre pre st).1 = chunks.map Action.yieldChunk := by
  intro pre
  induction pre with
  | nil => intro st; exact ⟨[], rfl⟩
  | cons t ts ih =>
    intro st
    obtain ⟨cs, hcs⟩ := ih (tickStep t st)
    obtain ⟨c0, hc0⟩ := tickTrace_yields t st
    refine ⟨c0 ++ cs, ?_⟩
    simp only [runPre]
    rw [hcs, hc0, List.map_append]

theorem titleActions_no_yield (title : Option String) (cid : Option String) (tset : Bool) :
    ∀ a ∈ titleActions title cid tset, ∀ s, a ≠ Action.yieldChunk s := by
  cases title <;> cases cid <;> cases tset <;> simp [titleActions]

/-! ## Claim C6 -/

/-- C6: if an interrupt is requested after any run of uninterrupted ticks,
`ask_stream` publishes the interrupt signal (aborting the outbound call),
then yields the final generation-stopped marker chunk, and yields no
further text chunks after that marker. -/
theorem c6_interrupt (tok pmid : String) (cid : Option String) (title : Option String)
    (titleSet : Bool) (startTime tmo : Nat) (pre rest : List Tick) (tk : Tick)
    (hpre : ∀ t ∈ pre, t.advances startTime tmo = true)
    (hk : tk.streaming = false) :
    ∃ (chunks : List String) (post : List Action),
      (ask_stream ⟨some tok⟩ (pre ++ tk :: rest) startTime tmo title titleSet pmid cid).trace
          = Action.sendXhr :: (chunks.map Action.yieldChunk
              ++ [Action.publishInterrupt, Action.yieldChunk generationStoppedMessage] ++ post)
        ∧ (∀ a ∈ post, ∀ s, a ≠ Action.yieldChunk s)
        ∧ (ask_stream ⟨some tok⟩ (pre ++ tk :: rest) startTime tmo title titleSet pmid cid).exit
            = ExitState.interrupted := by
  have hrun := pollLoop_runPre startTime tmo pre (tk :: rest) ⟨"", pmid, cid⟩ hpre
  have hkstep : pollLoop startTime tmo (tk :: rest) (runPre pre ⟨"", pmid, cid⟩).2
      = ⟨[Action.publishInterrupt], ExitState.interrupted, (runPre pre ⟨"", pmid, cid⟩).2⟩ := by
    simp [pollLoop, hk]
  rw [hkstep] at hrun
  obtain ⟨chunks, hchunks⟩ := runPre_trace_yields pre ⟨"", pmid, cid⟩
  refine ⟨chunks,
    Action.cleanupDivs :: titleActions title (runPre pre ⟨"", pmid, cid⟩).2.cid titleSet,
    ?_, ?_, ?_⟩
  · simp only [ask_stream, hrun]
    rw [hchunks]
    simp [List.append_assoc]
  · intro a ha s
    simp only [List.mem_cons] at ha
    rcases ha with rfl | ha
    · simp
    · exact titleActions_no_yield title _ titleSet a ha s
  · simp only [ask_stream, hrun]

/-- Witness for C6: one staged chunk is observed, then an interrupt. -/
theorem c6_interrupt_witness :
    ∃ (chunks : List String) (post : List Action),
      (ask_stream ⟨some "tok"⟩ ([chunkTick] ++ interruptTick :: []) 0 60 none false
          "p" none).trace
          = Action.sendXhr :: (chunks.map Action.yieldChunk
              ++ [Action.publishInterrupt, Action.yieldChunk generationStoppedMessage] ++ post)
        ∧ (∀ a ∈ post, ∀ s, a ≠ Action.yieldChunk s)
        ∧ (ask_stream ⟨some "tok"⟩ ([chunkTick] ++ interruptTick :: []) 0 60 none false
            "p" none).exit = ExitState.interrupted :=
  c6_interrupt "tok" "p" none none false 0 60 [chunkTick] [] interruptTick
    (by decide) (by decide)

/-! ## Claim C5 -/

/-- C5 (amended): the poll loop takes the TIMEOUT exit at a tick at which
the staging slot is present but empty, no interrupt and no eof signal have
arrived, and the wall clock has passed the timeout since the outbound
call; but when the slot carries a (possibly stale) staged text at every
tick, the TIMEOUT exit is never taken, however much time has passed. -/
theorem c5_amended :
    (∀ (tok pmid : String) (cid : Option String) (title : Option String) (titleSet : Bool)
        (startTime tmo : Nat) (pre rest : List Tick) (t : Tick),
        (∀ u ∈ pre, u.advances startTime tmo = true) →
        t.streaming = true → t.divPresent = true → t.staged = StagedData.empty →
        t.eofPresent = false → t.time - startTime > tmo →
        (ask_stream ⟨some tok⟩ (pre ++ t :: rest) startTime tmo title titleSet pmid cid).exit
          = ExitState.timeout)
    ∧ (∀ (startTime tmo : Nat) (ticks : List Tick) (st : StreamState),
        (∀ u ∈ ticks, u.staged ≠ StagedData.empty) →
        (pollLoop startTime tmo ticks st).exit ≠ ExitState.timeout) := by
  constructor
  · intro tok pmid cid title titleSet startTime tmo pre rest t hpre hstr hdiv hstg heof htime
    have hrun := pollLoop_runPre startTime tmo pre (t :: rest) ⟨"", pmid, cid⟩ hpre
    have hstep : pollLoop startTime tmo (t :: rest) (runPre pre ⟨"", pmid, cid⟩).2
        = ⟨[], ExitState.timeout, (runPre pre ⟨"", pmid, cid⟩).2⟩ := by
      simp [pollLoop, hstr, hdiv, hstg, heof, htime]
    rw [hstep] at hrun
    simp only [ask_stream, hrun]
  · intro startTime tmo ticks
    induction ticks with
    | nil => intro st _; simp [pollLoop]
    | cons t ts ih =>
      intro st hall
      have hts : ∀ u ∈ ts, u.staged ≠ StagedData.empty := fun u hu => hall u (by simp [hu])
      cases hstr : t.streaming
      · simp [pollLoop, hstr]
      · cases hdiv : t.divPresent
        · simp only [pollLoop, hstr, hdiv]
          simpa using ih st hts
        · cases hstg : t.staged
          · exact absurd hstg (hall t (by simp))
          · cases heof : t.eofPresent
            · simp only [pollLoop, hstr, hdiv, hstg, heof]
              simpa using ih _ hts
            · simp [pollLoop, hstr, hdiv, hstg, heof]
          · simp [pollLoop, hstr, hdiv, hstg]

/-- Witness for C5 (amended), both halves at concrete runs. -/
theorem c5_amended_witness :
    (ask_stream ⟨some "tok"⟩ ([chunkTick] ++ emptyPastDeadlineTick :: []) 0 60 none false
        "p" none).exit = ExitState.timeout
    ∧ (pollLoop 0 60 staleSlotTicks ⟨"", "p", none⟩).exit ≠ ExitState.timeout := by
  constructor
  · exact c5_amended.1 "tok" "p" none none false 0 60 [chunkTick] [] emptyPastDeadlineTick
      (by decide) (by decide) (by decide) (by decide) (by decide) (by decide)
  · exact c5_amended.2 0 60 staleSlotTicks ⟨"", "p", none⟩ (by decide)

/-- C5 counterexample: the full text "Hi" is staged once, then no new
staged text ever appears, the wall clock passes far beyond the timeout of
60, and no eof signal arrives -- yet the poll loop is still polling (the
observation window closes with the loop running), rather than having
terminated in the TIMEOUT state: the timeout test of line 481 fires only
while `full_event_message is None`, and the staging slot never re-empties
once written. -/
theorem c5_counterexample :
    (pollLoop 0 60 staleSlotTicks ⟨"", "p", none⟩).exit = ExitState.exhausted
    ∧ ExitState.exhausted ≠ ExitState.timeout := by
  constructor
  · rfl
  · decide

/-! ## Claim C7 -/

/-- C7: on every exit path of `ask_stream` that the poll loop reaches
within the observation window -- DONE, INTERRUPTED, TIMEOUT and
TRANSPORT_ERROR alike -- the staging divs are removed: `_cleanup_divs`
appears in the trace. -/
theorem c7_cleanup_unconditional (tok pmid : String) (cid : Option String)
    (title : Option String) (titleSet : Bool) (startTime tmo : Nat) (ticks : List Tick)
    (hexit : (pollLoop startTime tmo ticks ⟨"", pmid, cid⟩).exit ≠ ExitState.exhausted) :
    Action.cleanupDivs
      ∈ (ask_stream ⟨some tok⟩ ticks startTime tmo title titleSet pmid cid).trace := by
  cases hx : (pollLoop startTime tmo ticks ⟨"", pmid, cid⟩).exit with
  | exhausted => exact absurd hx hexit
  | doneEof => simp [ask_stream, hx]
  | interrupted => simp [ask_stream, hx]
  | timeout => simp [ask_stream, hx]
  | transportError => simp [ask_stream, hx]
  | authError => simp [ask_stream, hx]

/-- Witness for C7 at a run ending in DONE. -/
theorem c7_cleanup_witness :
    Action.cleanupDivs ∈ (ask_stream ⟨some "tok"⟩ [eofTick] 0 60 none false "p" none).trace :=
  c7_cleanup_unconditional "tok" "p" none none false 0 60 [eofTick] (by decide)

/-! ## The linearizer walk: loop, chain and termination -/

theorem linLoop_eq_ok_iff :
    ∀ (fuel : Nat) (nodes : List ConversationNode) (pid : Option String)
      (acc : List LinearMessage) (l : List LinearMessage),
      linLoop fuel nodes pid acc = LinResult.ok l ↔
        (walkEnds fuel nodes pid = true
          ∧ l = acc.reverse ++ (chainFrom fuel nodes pid).filterMap nodeLinear) := by
  intro fuel
  induction fuel with
  | zero =>
    intro nodes pid acc l
    simp [linLoop, walkEnds]
  | succ fuel ih =>
    intro nodes pid acc l
    cases hfind : nodes.find? (fun n => n.parent == pid) with
    | none =>
      simp [linLoop, walkEnds, chainFrom, hfind, eq_comm]
    | some cur =>
      cases hnl : nodeLinear cur with
      | some lm =>
        simp only [linLoop, hfind, hnl]
        rw [ih nodes (some cur.id) (lm :: acc) l]
        simp [walkEnds, chainFrom, hfind, hnl, List.filterMap_cons, List.reverse_cons,
          List.append_assoc]
      | none =>
        simp only [linLoop, hfind, hnl]
        rw [ih nodes (some cur.id) acc l]
        simp [walkEnds, chainFrom, hfind, hnl, List.filterMap_cons]

theorem walkEnds_of_mem :
    ∀ (g : Nat) (nodes : List ConversationNode) (pid : Option String) (fuel : Nat)
      (n : ConversationNode),
      walkEnds fuel nodes pid = true → n ∈ chainFrom g nodes pid →
      ∃ f2, f2 < fuel ∧ walkEnds f2 nodes (some n.id) = true := by
  intro g
  induction g with
  | zero =>
    intro nodes pid fuel n _ hmem
    simp [chainFrom] at hmem
  | succ g ih =>
    intro nodes pid fuel n hw hmem
    cases hfind : nodes.find? (fun x => x.parent == pid) with
    | none => simp [chainFrom, hfind] at hmem
    | some cur =>
      simp only [chainFrom, hfind] at hmem
      cases fuel with
      | zero => simp [walkEnds] at hw
      | succ fuel =>
        simp only [walkEnds, hfind] at hw
        rcases List.mem_cons.mp hmem with rfl | hmem2
        · exact ⟨fuel, Nat.lt_succ_self fuel, hw⟩
        · obtain ⟨f2, hf2, hwf2⟩ := ih nodes (some cur.id) fuel n hw hmem2
          exact ⟨f2, Nat.lt_trans hf2 (Nat.lt_succ_self fuel), hwf2⟩

theorem chain_no_revisit :
    ∀ (fuel : Nat) (nodes : List ConversationNode) (c : String),
      walkEnds fuel nodes (some c) = true →
      ∀ (g : Nat) (n : ConversationNode), n ∈ chainFrom g nodes (some c) → n.id ≠ c := by
  intro fuel
  induction fuel using Nat.strong_induction_on with
  | _ fuel ih =>
    intro nodes c hw g n hmem hid
    obtain ⟨f2, hlt, hw2⟩ := walkEnds_of_mem g nodes (some c) fuel n hw hmem
    rw [hid] at hw2
    exact ih f2 hlt nodes c hw2 g n hmem hid

theorem nodeLinear_role (n : ConversationNode) (m : LinearMessage)
    (h : nodeLinear n = some m) : m.role ≠ "system" := by
  cases hm : n.message with
  | none => simp [nodeLinear, hm] at h
  | some mm =>
    cases hc : mm.content with
    | none => cases ha : mm.author <;> simp [nodeLinear, hm, hc, ha] at h
    | some ct =>
      cases ha : mm.author with
      | none => simp [nodeLinear, hm, hc, ha] at h
      | some au =>
        by_cases hr : au.role = "system"
        · simp [nodeLinear, hm, hc, ha, hr] at h
        · simp [nodeLinear, hm, hc, ha, hr] at h
          rw [← h]
          exact hr

theorem cdm_single_root_run (cd : RawConversationExport) (p : ConversationNode) (c : String)
    (cs : List String) (hroot : rootlessNodes cd = [p]) (hc : p.children = some (c :: cs)) :
    conversation_data_to_messages cd = linLoop (fuelOf cd) (childNodes cd) (some c) [] := by
  simp only [rootlessNodes] at hroot
  simp only [conversation_data_to_messages, fuelOf, childNodes, hroot, hc]

/-! ## Claim C4 -/

/-- C4: on an export whose mapping contains zero rootless nodes, or more
than one rootless node, `conversation_data_to_messages` returns the empty
list: the walk starts at cursor `None` and no node carrying a "parent"
key matches it. -/
theorem c4_no_single_root (cd : RawConversationExport)
    (h : (rootlessNodes cd).length ≠ 1) :
    conversation_data_to_messages cd = LinResult.ok [] := by
  have hfind : (cd.mapping.filter fun n => n.parent.isSome).find?
      (fun n => n.parent == none) = none := by
    rw [List.find?_eq_none]
    intro x hx
    have hs : x.parent.isSome = true := (List.mem_filter.mp hx).2
    cases hp : x.parent with
    | none => rw [hp] at hs; simp at hs
    | some y => simp
  have hloop : linLoop ((cd.mapping.filter fun n => n.parent.isSome).length + 1)
      (cd.mapping.filter fun n => n.parent.isSome) none [] = LinResult.ok [] := by
    simp [linLoop, hfind]
  simp only [rootlessNodes] at h
  simp only [conversation_data_to_messages]
  cases hpn : cd.mapping.filter fun n => n.parent.isNone with
  | nil => exact hloop
  | cons p ps =>
    cases ps with
    | nil => exact absurd (by rw [hpn]; rfl) h
    | cons q qs => exact hloop

/-- Witness for C4 at an export with two rootless nodes. -/
theorem c4_no_single_root_witness :
    conversation_data_to_messages twoRootsExport = LinResult.ok [] :=
  c4_no_single_root twoRootsExport (by decide)

/-! ## Claim C3 -/

/-- C3 counterexample: an export whose mapping contains exactly one
rootless node, whose "children" key holds an empty list; the claim says
the linearizer returns the messages along the chain, but
`parent_nodes[0]["children"][0]` raises IndexError and nothing is
returned. -/
theorem c3_counterexample :
    conversation_data_to_messages emptyChildrenExport = LinResult.indexError := rfl

/-- C3 (amended): for every export with exactly one rootless node whose
children list is nonempty, whenever the walk terminates and returns a
list, that list is exactly the non-system messages of the parent-pointer
chain from the root's first child, in root-to-leaf order, and every
returned message has a role other than "system". (As stated the claim
fails: an empty children list raises IndexError, and a cyclic parent
chain never returns.) -/
theorem c3_amended (cd : RawConversationExport) (p : ConversationNode) (c : String)
    (cs : List String) (l : List LinearMessage)
    (hroot : rootlessNodes cd = [p])
    (hc : p.children = some (c :: cs))
    (hok : conversation_data_to_messages cd = LinResult.ok l) :
    l = (chainFrom (fuelOf cd) (childNodes cd) (some c)).filterMap nodeLinear
      ∧ ∀ m ∈ l, m.role ≠ "system" := by
  rw [cdm_single_root_run cd p c cs hroot hc] at hok
  rw [linLoop_eq_ok_iff] at hok
  obtain ⟨hw, hl⟩ := hok
  have hl2 : l = (chainFrom (fuelOf cd) (childNodes cd) (some c)).filterMap nodeLinear := by
    simpa using hl
  refine ⟨hl2, ?_⟩
  intro m hm
  rw [hl2] at hm
  obtain ⟨n, hn1, hn2⟩ := List.mem_filterMap.mp hm
  exact nodeLinear_role n m hn2

/-- Witness for C3 (amended) at a two-turn export. -/
theorem c3_amended_witness :
    ([⟨"mb", "assistant", "hello", 2⟩, ⟨"mc", "user", "bye", 3⟩] : List LinearMessage)
        = (chainFrom (fuelOf twoTurnExport) (childNodes twoTurnExport)
            (some "a")).filterMap nodeLinear
      ∧ ∀ m ∈ ([⟨"mb", "assistant", "hello", 2⟩, ⟨"mc", "user", "bye", 3⟩] :
          List LinearMessage), m.role ≠ "system" :=
  c3_amended twoTurnExport ⟨"root", none, some ["a"], none⟩ "a" []
    [⟨"mb", "assistant", "hello", 2⟩, ⟨"mc", "user", "bye", 3⟩]
    (by decide) (by decide) (by decide)

/-! ## Claim C10 -/

/-- C10: on every export with exactly one rootless node that has children,
whenever `conversation_data_to_messages` returns a list, that list comes
exactly from the nodes found as children of the walking cursor, and the
root's first child node itself (any node whose id is the first child id)
is never among them, regardless of its message's role: were it appended,
the cursor would return to the start value and the walk would never
terminate. -/
theorem c10_first_child_excluded (cd : RawConversationExport) (p : ConversationNode)
    (c : String) (cs : List String) (l : List LinearMessage)
    (hroot : rootlessNodes cd = [p])
    (hc : p.children = some (c :: cs))
    (hok : conversation_data_to_messages cd = LinResult.ok l) :
    l = (chainFrom (fuelOf cd) (childNodes cd) (some c)).filterMap nodeLinear
      ∧ ∀ n ∈ chainFrom (fuelOf cd) (childNodes cd) (some c), n.id ≠ c := by
  rw [cdm_single_root_run cd p c cs hroot hc] at hok
  rw [linLoop_eq_ok_iff] at hok
  obtain ⟨hw, hl⟩ := hok
  refine ⟨by simpa using hl, ?_⟩
  intro n hn
  exact chain_no_revisit (fuelOf cd) (childNodes cd) c hw (fuelOf cd) n hn

/-- Witness for C10 at an export whose chain starts with system messages:
the walk's chain below the first child "a" never contains a node with id
"a". -/
theorem c10_first_child_excluded_witness :
    ([⟨"mc", "user", "q", 3⟩] : List LinearMessage)
        = (chainFrom (fuelOf systemChainExport) (childNodes systemChainExport)
            (some "a")).filterMap nodeLinear
      ∧ ∀ n ∈ chainFrom (fuelOf systemChainExport) (childNodes systemChainExport)
          (some "a"), n.id ≠ "a" :=
  c10_first_child_excluded systemChainExport ⟨"root", none, some ["a"], none⟩ "a" []
    [⟨"mc", "user", "q", 3⟩] (by decide) (by decide) (by decide)

/-! ## Claim C8 -/

/-- C8 (code bug in the source): on a failing PATCH response the CRUD
calls do return the failure triple built from the status line, but on an
ok response whose body is not parseable JSON both `set_title` and
`delete_conversation` raise instead of returning: the handler
`except json.JSONDecodeError` inside `_process_api_response` dereferences
the local name `json`, which line 196 bound to `None`, so handling the
decode failure itself raises AttributeError. -/
theorem c8_exception_on_unparseable_body :
    set_title ⟨true, 200, "OK", none⟩ = PyResult.exc "AttributeError"
    ∧ delete_conversation (some "conv-uuid") none ⟨true, 200, "OK", none⟩
        = PyResult.exc "AttributeError"
    ∧ set_title ⟨false, 404, "Not Found", some "err"⟩
        = PyResult.ok (false, none, "Failed to set title: 404 Not Found")
    ∧ delete_conversation (some "conv-uuid") none ⟨false, 404, "Not Found", some "err"⟩
        = PyResult.ok (DeleteResult.failure
            (false, none, "Failed to delete conversation: 404 Not Found")) := by
  refine ⟨rfl, by decide, by decide, by decide⟩

/-! ## Claim C9 -/

/-- C9: whenever `refresh_session` returns -- the session payload parsed
or not, the url wait timed out or not -- its last navigation is to the
chat landing page. -/
theorem c9_refresh_restores_navigation (env : RefreshEnv) (tr : List NavAction) (upd : Bool)
    (h : refresh_session env = some (tr, upd)) :
    tr.getLast? = some NavAction.gotoChat := by
  by_cases hi : env.interstitialClears = false
  · simp [refresh_session, hi] at h
  · simp [refresh_session, hi] at h
    obtain ⟨h1, h2⟩ := h
    rw [← h1]
    cases hw : env.waitOk <;> simp [hw]

/-- Witness for C9 at a fully successful refresh. -/
theorem c9_refresh_witness :
    ([NavAction.gotoSession, NavAction.gotoChat] : List NavAction).getLast?
      = some NavAction.gotoChat :=
  c9_refresh_restores_navigation ⟨true, true, true, true⟩
    [NavAction.gotoSession, NavAction.gotoChat] true (by decide)

end CGW
